import Mathlib

/-!
Verification of `collector/src/runtime/benchmark.rs` (runtime benchmark suite
discovery, compilation supervision and assembly) against its specification.

The Rust code is shallowly embedded: external processes (cargo builds, the
benchmark `list` subprocess) are modelled as explicit environment functions,
`anyhow::Result` as `Except String`, `HashMap` as an association list, and
panics as the `Except.error` branch of the embedding.
-/

namespace RuntimeBenchmark

/-- Embedding of `BenchmarkGroup`: a successfully built unit with the path of
its compiled binary, its group name, and the benchmark names it reports.
Paths are modelled as strings. -/
structure BenchmarkGroup where
  binary : String
  name : String
  benchmark_names : List String
  deriving DecidableEq, Repr

/-- Embedding of `BenchmarkSuite`. The `_tmp_artifacts_dir : Option TempDir`
field of the source is a filesystem resource handle kept only to delay its
deletion; it is modelled as `Option Unit`. -/
structure BenchmarkSuite where
  toolchain : String
  groups : List BenchmarkGroup
  tmp_artifacts_dir : Option Unit
  deriving DecidableEq, Repr

/-- Embedding of `BenchmarkFilter` (a pair of optional patterns). The source
field `include` is a Lean keyword, so it is called `inc` here. -/
structure BenchmarkFilter where
  exclude : Option String
  inc : Option String
  deriving DecidableEq, Repr

/-- Embedding of `BenchmarkGroupCrate`: a discovered, not-yet-built unit. -/
structure BenchmarkGroupCrate where
  name : String
  path : String
  deriving DecidableEq, Repr

/-- Embedding of `BenchmarkSuiteCompilation`: the assembled suite plus the map
from failed group name to compilation error, `HashMap<String, String>`
modelled as an association list with distinct keys. -/
structure BenchmarkSuiteCompilation where
  suite : BenchmarkSuite
  failed_to_compile : List (String × String)
  deriving DecidableEq, Repr

/-- Association-list lookup, modelling `HashMap::get`. -/
def lookupKey (k : String) : List (String × String) → Option String
  | [] => none
  | (k', v) :: rest => if k' = k then some v else lookupKey k rest

/-- The error message built by `check_duplicates` when benchmark name `b` is
seen a second time: the first owning group is `g1`, the current one `g2`. -/
def dupMsg (b g1 g2 : String) : String :=
  "Duplicated benchmark name: runtime benchmark `" ++ b ++ "` defined both in `"
    ++ g1 ++ "` and in `" ++ g2 ++ "`"

/-- Inner loop of `check_duplicates`: walk one group's benchmark names,
erroring as soon as a name is already in the map, otherwise inserting it
(insertion `HashMap::insert` is modelled by consing; along a non-erroring run
the key is absent, so cons and overwrite agree). -/
def cdNames (groupName : String) :
    List String → List (String × String) → Except String (List (String × String))
  | [], m => .ok m
  | b :: rest, m =>
    match lookupKey b m with
    | some prev => .error (dupMsg b prev groupName)
    | none => cdNames groupName rest ((b, groupName) :: m)

/-- Outer loop of `check_duplicates` over the groups. -/
def cdGroups : List BenchmarkGroup → List (String × String) → Except String Unit
  | [], _ => .ok ()
  | g :: rest, m =>
    match cdNames g.name g.benchmark_names m with
    | .error e => .error e
    | .ok m' => cdGroups rest m'

/-- Embedding of `check_duplicates`: scan every (group, benchmark-name) pair
against a map from benchmark name to the group that first defined it. -/
def check_duplicates (groups : List BenchmarkGroup) : Except String Unit :=
  cdGroups groups []

/-- The flattened sequence of (benchmark name, group name) pairs that
`check_duplicates` scans, in scan order. -/
def flatPairs : List BenchmarkGroup → List (String × String)
  | [] => []
  | g :: rest => g.benchmark_names.map (fun b => (b, g.name)) ++ flatPairs rest

/-- All benchmark names of a list of groups, in scan order. -/
def allNames (groups : List BenchmarkGroup) : List String :=
  (flatPairs groups).map Prod.fst

/-- One-level fold equivalent of the nested `check_duplicates` loops, over the
flattened pair sequence. -/
def cdPairs : List (String × String) → List (String × String) → Except String Unit
  | [], _ => .ok ()
  | (b, gn) :: rest, m =>
    match lookupKey b m with
    | some prev => .error (dupMsg b prev gn)
    | none => cdPairs rest ((b, gn) :: m)

/-- Embedding of `CargoIsolationMode`. -/
inductive CargoIsolationMode where
  | cached
  | isolated
  deriving DecidableEq, Repr

/-- Embedding of `RuntimeCompilationOpts` (only carries the optional
debug-info setting forwarded to the build environment). -/
structure RuntimeCompilationOpts where
  debug_info : Option String
  deriving DecidableEq, Repr

/-- The variants of `cargo_metadata::Message` that `parse_benchmark_group`
distinguishes: a compiler artifact (with its optional executable path and its
target kinds), a plain text line, a rendered compiler diagnostic, and
everything else (collapsed into `other`, which the source explicitly
ignores). -/
inductive Message where
  | compilerArtifact (executable : Option String) (kinds : List String)
  | textLine (line : String)
  | compilerMessage (rendered : Option String) (message : String)
  | other
  deriving DecidableEq, Repr

/-- A finished cargo build process as `parse_benchmark_group` observes it:
the structured stdout stream (each element a parsed message or a stream
parse error) and the exit status, with `exitCode` modelling
`ExitStatus::code()`. -/
structure CargoProcess where
  messages : List (Except String Message)
  exitSuccess : Bool
  exitCode : Option Int

/-- The `multiple binaries` error message of `parse_benchmark_group`. -/
def multipleBinariesMsg (groupName : String) : String :=
  "Runtime benchmark group `" ++ groupName ++ "` has produced multiple binaries"

/-- The `no binary produced` error message of `parse_benchmark_group`. -/
def noBinaryMsg (groupName : String) : String :=
  "Runtime benchmark group `" ++ groupName ++ "` has not produced any binary"

/-- The error message wrapped around a failing `gather_benchmarks` call. -/
def gatherFailMsg (path err : String) : String :=
  "Cannot gather benchmarks from `" ++ path ++ "`: " ++ err

/-- The nonzero-exit error message of `parse_benchmark_group`: it carries the
exit code (defaulting to 1 when the OS reports none) and the accumulated
diagnostics buffer. -/
def exitCodeMsg (code : Option Int) (messages : String) : String :=
  "Failed to compile runtime benchmark, exit code " ++ toString (code.getD 1)
    ++ "\n" ++ messages

/-- The message loop of `parse_benchmark_group`: walk the stream, tracking
the group built so far (`none` until an executable artifact is seen) and the
accumulated diagnostics buffer. `gather` models running the freshly built
binary with the `list` argument (`gather_benchmarks`), an external process
supplied as an environment function. -/
def processMessages (gather : String → Except String (List String))
    (groupName : String) :
    List (Except String Message) → Option BenchmarkGroup → String →
      Except String (Option BenchmarkGroup × String)
  | [], group, messages => .ok (group, messages)
  | m :: rest, group, messages =>
    match m with
    | .error e => .error e
    | .ok (.compilerArtifact executable kinds) =>
      match executable with
      | some path =>
        if kinds.any (fun k => k == "bin") then
          if group.isSome then .error (multipleBinariesMsg groupName)
          else
            match gather path with
            | .error err => .error (gatherFailMsg path err)
            | .ok benchmarks =>
              processMessages gather groupName rest
                (some { binary := path, name := groupName,
                        benchmark_names := benchmarks }) messages
        else processMessages gather groupName rest group messages
      | none => processMessages gather groupName rest group messages
    | .ok (.textLine _) => processMessages gather groupName rest group messages
    | .ok (.compilerMessage rendered message) =>
      processMessages gather groupName rest group (messages ++ rendered.getD message)
    | .ok .other => processMessages gather groupName rest group messages

/-- Embedding of `parse_benchmark_group`: consume the stream, then wait for
the exit status; a nonzero exit wins over the artifact check, and a clean
exit with no artifact is the distinct `no binary produced` error. -/
def parse_benchmark_group (gather : String → Except String (List String))
    (cargoProcess : CargoProcess) (groupName : String) :
    Except String BenchmarkGroup :=
  match processMessages gather groupName cargoProcess.messages none "" with
  | .error e => .error e
  | .ok (group, messages) =>
    if cargoProcess.exitSuccess then
      match group with
      | none => .error (noBinaryMsg groupName)
      | some g => .ok g
    else .error (exitCodeMsg cargoProcess.exitCode messages)

/-- Rendering of an `anyhow` context layer as produced by
`format!("{error:?}")` on a context-wrapped error: the context line followed
by the wrapped cause. -/
def contextMsg (ctx inner : String) : String :=
  ctx ++ "\n\nCaused by:\n    " ++ inner

/-- The per-unit pipeline of the assembly loop:
`start_cargo_build(...).with_context(...).and_then(parse_benchmark_group(...).with_context(...))`.
`startBuild` models `start_cargo_build` (spawning cargo), an external process
supplied as an environment function; a spawn failure is its `error` case. -/
def buildCrate (startBuild : BenchmarkGroupCrate → Except String CargoProcess)
    (gather : String → Except String (List String))
    (c : BenchmarkGroupCrate) : Except String BenchmarkGroup :=
  match startBuild c with
  | .error e => .error (contextMsg ("Cannot start compilation of " ++ c.name) e)
  | .ok process =>
    match parse_benchmark_group gather process c.name with
    | .error e =>
      .error (contextMsg ("Cannot compile runtime benchmark " ++ c.name) e)
    | .ok group => .ok group

/-- Modelled from the spec: `runtime_group_step_name` is defined in the
collector crate root, outside the provided source file. The spec states that
per-unit failures are "isolated in a failure map keyed by unit name", so the
step name of a unit is modelled as the unit's name itself. -/
def runtime_group_step_name (benchmark : String) : String := benchmark

/-- Models `HashMap::insert` on the failure map: replace the value at an existing
key, otherwise add the binding. -/
def insertFail (k v : String) : List (String × String) → List (String × String)
  | [] => [(k, v)]
  | (k', v') :: rest =>
    if k' = k then (k, v) :: rest else (k', v') :: insertFail k v rest

/-- The assembly loop of `prepare_runtime_benchmark_suite`: build each crate
in turn, pushing successes and recording failures, one crate's failure never
aborting the loop. -/
def prepareLoop (startBuild : BenchmarkGroupCrate → Except String CargoProcess)
    (gather : String → Except String (List String)) :
    List BenchmarkGroupCrate → List BenchmarkGroup → List (String × String) →
      List BenchmarkGroup × List (String × String)
  | [], groups, failed => (groups, failed)
  | c :: rest, groups, failed =>
    match buildCrate startBuild gather c with
    | .ok group => prepareLoop startBuild gather rest (groups ++ [group]) failed
    | .error e =>
      prepareLoop startBuild gather rest groups
        (insertFail (runtime_group_step_name c.name) e failed)

/-- Lexicographic comparison of character sequences by code point, the
order `str::cmp` induces on the strings handled here. -/
def charsLe : List Char → List Char → Bool
  | [], _ => true
  | _ :: _, [] => false
  | a :: as, b :: bs =>
    if a.toNat < b.toNat then true
    else if b.toNat < a.toNat then false
    else charsLe as bs

/-- Comparison `a.cmp(&b).is_le()` on strings. -/
def strLe (a b : String) : Bool := charsLe a.data b.data

/-- Embedding of `groups.sort_unstable_by(|a, b| a.binary.cmp(&b.binary))`. -/
def sortGroupsByBinary (groups : List BenchmarkGroup) : List BenchmarkGroup :=
  List.insertionSort (fun a b => strLe a.binary b.binary = true) groups

/-- An immediate entry of the benchmark root directory as the `read_dir`
loop of `get_runtime_benchmark_groups` observes it: its path, its file name
(`none` models a name that is not valid unicode), whether it is a directory,
and whether it contains a `Cargo.toml` file. The successful directory
listing itself is the model's input; listing I/O errors are environment
failures outside the embedding. -/
structure DirEntry where
  path : String
  name : Option String
  isDir : Bool
  hasCargoToml : Bool
  deriving DecidableEq, Repr

/-- The error message for a directory entry whose name is not valid text. -/
def entryBadNameMsg (path : String) : String :=
  "Cannot get filename of " ++ path

/-- The collection loop of `get_runtime_benchmark_groups`: skip entries that
are not directories or lack a manifest, fail on an invalid name, skip names
filtered out by the optional restriction, keep the rest in entry order. -/
def collectCrates (group : Option String) :
    List DirEntry → Except String (List BenchmarkGroupCrate)
  | [] => .ok []
  | e :: rest =>
    if e.isDir && e.hasCargoToml then
      match e.name with
      | none => .error (entryBadNameMsg e.path)
      | some n =>
        match group with
        | some g =>
          if g ≠ n then collectCrates group rest
          else
            match collectCrates group rest with
            | .error err => .error err
            | .ok tail => .ok ({ name := n, path := e.path } :: tail)
        | none =>
          match collectCrates group rest with
          | .error err => .error err
          | .ok tail => .ok ({ name := n, path := e.path } :: tail)
    else collectCrates group rest

/-- Embedding of `groups.sort_unstable_by(|a, b| a.name.cmp(&b.name))`. -/
def sortCratesByName (crates : List BenchmarkGroupCrate) : List BenchmarkGroupCrate :=
  List.insertionSort (fun a b => strLe a.name b.name = true) crates

/-- Embedding of `get_runtime_benchmark_groups`: collect the qualifying
entries, then sort them by name. -/
def get_runtime_benchmark_groups (entries : List DirEntry)
    (group : Option String) : Except String (List BenchmarkGroupCrate) :=
  match collectCrates group entries with
  | .error e => .error e
  | .ok crates => .ok (sortCratesByName crates)

/-- Embedding of `prepare_runtime_benchmark_suite`: discovery, then the
sequential per-crate loop, then the deterministic sort by binary path, then
global duplicate validation, finally the bundled result. The temporary
artifacts directory created in isolated mode is modelled as `some ()`. -/
def prepare_runtime_benchmark_suite
    (startBuild : BenchmarkGroupCrate → Except String CargoProcess)
    (gather : String → Except String (List String))
    (toolchain : String) (entries : List DirEntry)
    (isolation_mode : CargoIsolationMode) (group : Option String) :
    Except String BenchmarkSuiteCompilation :=
  match get_runtime_benchmark_groups entries group with
  | .error e => .error e
  | .ok benchmark_crates =>
    match check_duplicates
        (sortGroupsByBinary (prepareLoop startBuild gather benchmark_crates [] []).1) with
    | .error e => .error e
    | .ok _ =>
      .ok { suite :=
              { toolchain := toolchain,
                groups :=
                  sortGroupsByBinary
                    (prepareLoop startBuild gather benchmark_crates [] []).1,
                tmp_artifacts_dir :=
                  match isolation_mode with
                  | .cached => none
                  | .isolated => some () },
            failed_to_compile :=
              (prepareLoop startBuild gather benchmark_crates [] []).2 }

/-- The header of the `extract_suite` panic message. -/
def extractHeader : String :=
  "Cannot extract runtime suite because of compilation errors:\n"

/-- One `writeln!(message, "{group}\n{error}\n")` step of `extract_suite`. -/
def failChunk (group error : String) : String :=
  group ++ "\n" ++ error ++ "\n\n"

/-- The full panic message of `extract_suite` for a non-empty failure map. -/
def extractFailureText (failed : List (String × String)) : String :=
  failed.foldl (fun acc p => acc ++ failChunk p.1 p.2) extractHeader

/-- Embedding of `BenchmarkSuiteCompilation::extract_suite`; the `panic!` of
the source is the `error` case of the embedding. -/
def extract_suite (self : BenchmarkSuiteCompilation) :
    Except String BenchmarkSuite :=
  if self.failed_to_compile.isEmpty then .ok self.suite
  else .error (extractFailureText self.failed_to_compile)

/-- Modelled from the spec: `passes_filter` comes from `benchlib`, outside
the provided source file. The spec: "a benchmark name is kept when it is not
excluded by the exclude pattern (if present) and is included by the include
pattern (if present); absence of a pattern imposes no constraint on that
axis". The matching primitive itself is deliberately left as the `matchesPat`
parameter, since the spec leaves pattern semantics to an external contract. -/
def passes_filter (matchesPat : String → String → Bool) (benchmark : String)
    (exclude inc : Option String) : Bool :=
  (match exclude with
   | some e => !(matchesPat benchmark e)
   | none => true)
  &&
  (match inc with
   | some i => matchesPat benchmark i
   | none => true)

/-- Embedding of `BenchmarkSuite::filter`: keep exactly the groups with at
least one benchmark passing the filter, each kept group unchanged. -/
def BenchmarkSuite.filter (matchesPat : String → String → Bool)
    (self : BenchmarkSuite) (filter : BenchmarkFilter) : BenchmarkSuite :=
  { toolchain := self.toolchain,
    groups := self.groups.filter (fun group =>
      group.benchmark_names.any (fun benchmark =>
        passes_filter matchesPat benchmark filter.exclude filter.inc)),
    tmp_artifacts_dir := self.tmp_artifacts_dir }

/-- Embedding of `BenchmarkSuite::get_group_by_benchmark`: the first group
listing the benchmark, if any. -/
def BenchmarkSuite.get_group_by_benchmark (self : BenchmarkSuite)
    (benchmark : String) : Option BenchmarkGroup :=
  self.groups.find? (fun group =>
    group.benchmark_names.any (fun b => b == benchmark))

/-- Modelled from the spec: `EnsureImmutableFile` comes from
`crate::utils::fs`, outside the provided source file. Per the spec it is a
scoped guard over the unit's `Cargo.lock`: construction records the file's
prior permission bits and makes the file read-only, and release "restores
its prior permissions unconditionally", even when the guarded build fails.
Permission bits are modelled as a natural number. -/
structure EnsureImmutableFile where
  priorPerms : Nat
  deriving DecidableEq, Repr

/-- The read-only permission bits the guard imposes for the build's
duration. -/
def readOnlyPerms : Nat := 0o444

/-- Guard construction (`EnsureImmutableFile::new`): store the prior bits
and leave the file read-only. -/
def EnsureImmutableFile.new (perms : Nat) : EnsureImmutableFile × Nat :=
  ({ priorPerms := perms }, readOnlyPerms)

/-- Guard release (the source's `Drop` impl, which Rust runs on scope exit on
every path, early returns and unwinding included): restore the stored bits
regardless of the file's current bits. -/
def EnsureImmutableFile.release (guard : EnsureImmutableFile)
    (_current : Nat) : Nat := guard.priorPerms

/-- One isolated-mode build step as the assembly loop performs it: acquire
the guard, run the build (which may succeed or fail and may observe or even
alter the file's bits), then release the guard. The pair returned is the
build's outcome and the lock file's final permission bits. -/
def isolatedBuildPerms (perms : Nat)
    (build : Nat → Except String BenchmarkGroup × Nat) :
    Except String BenchmarkGroup × Nat :=
  let acquired := EnsureImmutableFile.new perms
  let result := build acquired.2
  (result.1, acquired.1.release result.2)

/-- A message that designates an executable binary artifact: a compiler
artifact with an executable path whose target kinds include `bin`. -/
def isBinArtifact : Message → Bool
  | .compilerArtifact (some _) kinds => kinds.any (fun k => k == "bin")
  | _ => false

/-- The diagnostics buffer the message loop accumulates: the rendered forms
of the compiler diagnostics, in stream order, appended to `acc`. -/
def diagnosticsBuffer : List (Except String Message) → String → String
  | [], acc => acc
  | .ok (.compilerMessage rendered message) :: rest, acc =>
    diagnosticsBuffer rest (acc ++ rendered.getD message)
  | _ :: rest, acc => diagnosticsBuffer rest acc

/-- The successful side of a per-unit pipeline outcome, used to state what
the assembly loop accumulates. -/
def exceptToOption : Except String BenchmarkGroup → Option BenchmarkGroup
  | .ok g => some g
  | .error _ => none

/-- The qualifying unit entries of a directory listing, as crates, in entry
order: the entries that are directories holding a manifest, restricted by
the optional group-name restriction. Used to state discovery's contract. -/
def unitCrates (entries : List DirEntry) (group : Option String) :
    List BenchmarkGroupCrate :=
  ((entries.filter (fun e => e.isDir && e.hasCargoToml)).map
      (fun e => { name := e.name.getD "", path := e.path })).filter
    (fun c => match group with | some g => g == c.name | none => true)

theorem cdNames_as_cdPairs (gn : String) (names : List String)
    (m : List (String × String)) (ps : List (String × String)) :
    cdPairs (names.map (fun b => (b, gn)) ++ ps) m =
      match cdNames gn names m with
      | .error e => .error e
      | .ok m' => cdPairs ps m' := by
  induction names generalizing m with
  | nil => simp [cdNames]
  | cons b rest ih =>
    simp only [List.map_cons, List.cons_append, cdPairs, cdNames]
    cases lookupKey b m with
    | none => exact ih _
    | some prev => rfl

theorem cdGroups_as_cdPairs (groups : List BenchmarkGroup)
    (m : List (String × String)) :
    cdGroups groups m = cdPairs (flatPairs groups) m := by
  induction groups generalizing m with
  | nil => rfl
  | cons g rest ih =>
    simp only [cdGroups, flatPairs, cdNames_as_cdPairs g.name g.benchmark_names m]
    cases cdNames g.name g.benchmark_names m with
    | error e => rfl
    | ok m' => exact ih m'

theorem lookupKey_cons (k k' v : String) (m : List (String × String)) :
    lookupKey k ((k', v) :: m) = if k' = k then some v else lookupKey k m := rfl

/-- Lemma: `cdPairs` succeeds exactly when the keys of the remaining pairs are
pairwise distinct and none of them is already in the map. -/
theorem cdPairs_ok_iff (ps : List (String × String)) (m : List (String × String)) :
    cdPairs ps m = .ok () ↔
      (ps.map Prod.fst).Nodup ∧ ∀ p ∈ ps, lookupKey p.1 m = none := by
  induction ps generalizing m with
  | nil => simp [cdPairs]
  | cons p rest ih =>
    obtain ⟨b, gn⟩ := p
    simp only [cdPairs]
    cases hlk : lookupKey b m with
    | some prev =>
      simp only [List.map_cons, List.nodup_cons]
      constructor
      · intro h; exact absurd h (by simp)
      · rintro ⟨-, hall⟩
        have := hall (b, gn) (List.mem_cons_self _ _)
        simp [hlk] at this
    | none =>
      rw [ih]
      simp only [List.map_cons, List.nodup_cons, List.mem_cons]
      constructor
      · rintro ⟨hnodup, hall⟩
        refine ⟨⟨?_, hnodup⟩, ?_⟩
        · intro hb
          obtain ⟨q, hmem, hfst⟩ := List.mem_map.mp hb
          have hq := hall q hmem
          rw [lookupKey_cons, hfst, if_pos rfl] at hq
          exact Option.some_ne_none _ hq
        · rintro q (hq | hq)
          · subst hq; exact hlk
          · have hq' := hall q hq
            rw [lookupKey_cons] at hq'
            by_cases hqb : b = q.1
            · rw [if_pos hqb] at hq'
              exact absurd hq' (Option.some_ne_none _)
            · rwa [if_neg hqb] at hq'
      · rintro ⟨⟨hnotin, hnodup⟩, hall⟩
        refine ⟨hnodup, ?_⟩
        intro q hq
        have hq' := hall q (Or.inr hq)
        rw [lookupKey_cons]
        have hqb : ¬ b = q.1 := by
          intro hEq
          exact hnotin (hEq ▸ List.mem_map.mpr ⟨q, hq, rfl⟩)
        rw [if_neg hqb]
        exact hq'

/-- When `cdPairs` errors, the message is `dupMsg b g1 g2` where `(b, g2)` is
a pair of the remaining input and `(b, g1)` was found in the map: either it
was inserted from an earlier remaining pair, or it was already in `m`. -/
theorem cdPairs_error_shape (ps : List (String × String))
    (m : List (String × String)) (e : String) :
    cdPairs ps m = .error e →
    ∃ b g1 g2 l2 l3, ps = l2 ++ (b, g2) :: l3 ∧ e = dupMsg b g1 g2 ∧
      ((b, g1) ∈ l2 ∨ lookupKey b m = some g1) := by
  induction ps generalizing m with
  | nil => intro h; simp [cdPairs] at h
  | cons p rest ih =>
    obtain ⟨b0, g0⟩ := p
    simp only [cdPairs]
    cases hlk : lookupKey b0 m with
    | some prev =>
      intro h
      injection h with h
      exact ⟨b0, prev, g0, [], rest, by simp, h.symm, Or.inr hlk⟩
    | none =>
      intro h
      obtain ⟨b, g1, g2, l2, l3, hsplit, hmsg, hsrc⟩ := ih _ h
      refine ⟨b, g1, g2, (b0, g0) :: l2, l3, by simp [hsplit], hmsg, ?_⟩
      rcases hsrc with hmem | hlk'
      · exact Or.inl (List.mem_cons_of_mem _ hmem)
      · rw [lookupKey_cons] at hlk'
        by_cases hb : b0 = b
        · subst hb
          rw [if_pos rfl] at hlk'
          injection hlk' with hg
          exact Or.inl (by simp [hg])
        · rw [if_neg hb] at hlk'
          exact Or.inr hlk'

/-- Lemma: `check_duplicates` succeeds exactly when all benchmark names across all
groups (within-group occurrences included) are pairwise distinct. -/
theorem check_duplicates_ok_iff (groups : List BenchmarkGroup) :
    check_duplicates groups = .ok () ↔ (allNames groups).Nodup := by
  unfold check_duplicates allNames
  rw [cdGroups_as_cdPairs, cdPairs_ok_iff]
  simp [lookupKey]

/-- When `check_duplicates` errors, the message names a benchmark and the two
(group-name) occurrences that duplicate it, the first strictly earlier. -/
theorem check_duplicates_error_shape (groups : List BenchmarkGroup) (e : String) :
    check_duplicates groups = .error e →
    ∃ b g1 g2 l1 l2 l3,
      flatPairs groups = l1 ++ (b, g1) :: l2 ++ (b, g2) :: l3 ∧
      e = dupMsg b g1 g2 := by
  unfold check_duplicates
  rw [cdGroups_as_cdPairs]
  intro h
  obtain ⟨b, g1, g2, l2, l3, hsplit, hmsg, hsrc⟩ := cdPairs_error_shape _ _ _ h
  rcases hsrc with hmem | hlk
  · obtain ⟨la, lb, hl2⟩ := List.append_of_mem hmem
    exact ⟨b, g1, g2, la, lb, l3, by simp [hsplit, hl2], hmsg⟩
  · simp [lookupKey] at hlk

/-- Lemma: `check_duplicates` never returns an `ok` value other than `()` and on any
input either succeeds or errors. -/
theorem check_duplicates_error_of_not_ok (groups : List BenchmarkGroup)
    (h : check_duplicates groups ≠ .ok ()) :
    ∃ e, check_duplicates groups = .error e := by
  cases hres : check_duplicates groups with
  | error e => exact ⟨e, rfl⟩
  | ok u => cases u; exact absurd hres h

theorem flatPairs_append (a b : List BenchmarkGroup) :
    flatPairs (a ++ b) = flatPairs a ++ flatPairs b := by
  induction a with
  | nil => rfl
  | cons g rest ih => simp [flatPairs, ih]

theorem allNames_cons (g : BenchmarkGroup) (rest : List BenchmarkGroup) :
    allNames (g :: rest) = g.benchmark_names ++ allNames rest := by
  simp only [allNames, flatPairs, List.map_append, List.map_map]
  congr 1
  induction g.benchmark_names with
  | nil => rfl
  | cons b bs ih => simp only [List.map_cons, ih, Function.comp_apply]

theorem allNames_append (a b : List BenchmarkGroup) :
    allNames (a ++ b) = allNames a ++ allNames b := by
  simp [allNames, flatPairs_append]

theorem names_sublist_allNames (groups : List BenchmarkGroup)
    (g : BenchmarkGroup) (h : g ∈ groups) :
    g.benchmark_names.Sublist (allNames groups) := by
  obtain ⟨l1, l2, rfl⟩ := List.append_of_mem h
  rw [allNames_append, allNames_cons]
  exact ((List.sublist_append_left g.benchmark_names (allNames l2)).trans
    (List.sublist_append_right (allNames l1) _))

theorem prepare_ok_elim
    (sb : BenchmarkGroupCrate → Except String CargoProcess)
    (g : String → Except String (List String)) (tc : String)
    (entries : List DirEntry) (iso : CargoIsolationMode) (grp : Option String)
    (r : BenchmarkSuiteCompilation)
    (h : prepare_runtime_benchmark_suite sb g tc entries iso grp = .ok r) :
    ∃ crates, get_runtime_benchmark_groups entries grp = .ok crates ∧
      r.suite.groups = sortGroupsByBinary (prepareLoop sb g crates [] []).1 ∧
      r.failed_to_compile = (prepareLoop sb g crates [] []).2 ∧
      check_duplicates (sortGroupsByBinary (prepareLoop sb g crates [] []).1) =
        .ok () := by
  unfold prepare_runtime_benchmark_suite at h
  split at h
  · exact absurd h (by simp)
  · rename_i crates hd
    split at h
    · exact absurd h (by simp)
    · rename_i u hc
      cases u
      injection h with h
      subst h
      exact ⟨crates, hd, rfl, rfl, hc⟩

/-- Claim C1 (amended): `check_duplicates` fails the assembly whenever any
benchmark name occurs twice in the scanned (benchmark, group) sequence —
whether under two different group names or twice within one group — and the
error names a duplicated benchmark together with the group names of two of
its occurrences (which coincide for a within-group duplicate); validation
succeeds exactly when no benchmark name occurs twice at all, and a suite
assembly that returns a result therefore has globally distinct benchmark
names. -/
theorem claim_C1_duplicate_validation :
    (∀ groups : List BenchmarkGroup,
      (check_duplicates groups = .ok () ↔ (allNames groups).Nodup) ∧
      (¬ (allNames groups).Nodup →
        ∃ b g1 g2 l1 l2 l3,
          flatPairs groups = l1 ++ (b, g1) :: l2 ++ (b, g2) :: l3 ∧
          check_duplicates groups = .error (dupMsg b g1 g2))) ∧
    (∀ sb g tc entries iso grp r,
      prepare_runtime_benchmark_suite sb g tc entries iso grp = .ok r →
      (allNames r.suite.groups).Nodup) := by
  constructor
  · intro groups
    refine ⟨check_duplicates_ok_iff groups, ?_⟩
    intro h
    have hne : check_duplicates groups ≠ .ok () := fun hok =>
      h ((check_duplicates_ok_iff groups).mp hok)
    obtain ⟨e, he⟩ := check_duplicates_error_of_not_ok groups hne
    obtain ⟨b, g1, g2, l1, l2, l3, hsplit, hmsg⟩ :=
      check_duplicates_error_shape groups e he
    exact ⟨b, g1, g2, l1, l2, l3, hsplit, hmsg ▸ he⟩
  · intro sb g tc entries iso grp r h
    obtain ⟨crates, -, hgroups, -, hchk⟩ :=
      prepare_ok_elim sb g tc entries iso grp r h
    rw [hgroups]
    exact (check_duplicates_ok_iff _).mp hchk

/-- Claim C1 witness: on two groups `ga`, `gb` both defining benchmark `x`,
duplicate validation fails with an error naming `x` and both group names. -/
theorem claim_C1_witness :
    ∃ b g1 g2 l1 l2 l3,
      flatPairs [⟨"t/a", "ga", ["x"]⟩, ⟨"t/b", "gb", ["x"]⟩] =
        l1 ++ (b, g1) :: l2 ++ (b, g2) :: l3 ∧
      check_duplicates [⟨"t/a", "ga", ["x"]⟩, ⟨"t/b", "gb", ["x"]⟩] =
        .error (dupMsg b g1 g2) :=
  (claim_C1_duplicate_validation.1 _).2 (by decide)

/-- Claim C1 counterexample: a single group `g` listing benchmark `a` twice
shares no benchmark name across two different group names, yet duplicate
validation fails (with an error naming `g` on both sides), refuting the
claim's converse that validation then does not fail. -/
theorem claim_C1_counterexample :
    (∀ g1 ∈ ([⟨"t/g", "g", ["a", "a"]⟩] : List BenchmarkGroup),
      ∀ g2 ∈ ([⟨"t/g", "g", ["a", "a"]⟩] : List BenchmarkGroup),
        g1.name ≠ g2.name → ∀ b ∈ g1.benchmark_names, b ∉ g2.benchmark_names) ∧
    check_duplicates [⟨"t/g", "g", ["a", "a"]⟩] = .error (dupMsg "a" "g" "g") :=
  ⟨by decide, rfl⟩

/-- Claim C2 (amended): benchmark names must be globally unique including
within a single group — a name occurring more than once inside one group's
benchmark list already makes duplicate validation fail. -/
theorem claim_C2_within_group_duplicates
    (groups : List BenchmarkGroup) (g : BenchmarkGroup)
    (hmem : g ∈ groups) (hdup : ¬ g.benchmark_names.Nodup) :
    ∃ e, check_duplicates groups = .error e := by
  have hsub := names_sublist_allNames groups g hmem
  have hnot : ¬ (allNames groups).Nodup := fun hnd => hdup (hnd.sublist hsub)
  exact check_duplicates_error_of_not_ok groups fun hok =>
    hnot ((check_duplicates_ok_iff groups).mp hok)

/-- Claim C2 witness: validation fails on a group listing `z` twice. -/
theorem claim_C2_witness :
    ∃ e, check_duplicates [⟨"t/c", "gc", ["z", "z"]⟩] = .error e :=
  claim_C2_within_group_duplicates _ ⟨"t/c", "gc", ["z", "z"]⟩ (by decide)
    (by decide)

/-- Claim C2 counterexample: benchmark `x` occurs twice inside the single
group `g2` and no benchmark name is shared between different group names,
yet `check_duplicates` errors instead of succeeding as the claim states. -/
theorem claim_C2_counterexample :
    ¬ (["x", "x", "y"] : List String).Nodup ∧
    check_duplicates [⟨"t/x", "g2", ["x", "x", "y"]⟩] =
      .error (dupMsg "x" "g2" "g2") :=
  ⟨by decide, rfl⟩

theorem foldl_chunk_extend (l : List (String × String)) (acc : String) :
    ∃ suffix,
      l.foldl (fun a p => a ++ failChunk p.1 p.2) acc = acc ++ suffix := by
  induction l generalizing acc with
  | nil => exact ⟨"", by simp [String.append_empty]⟩
  | cons q rest ih =>
    obtain ⟨s, hs⟩ := ih (acc ++ failChunk q.1 q.2)
    exact ⟨failChunk q.1 q.2 ++ s, by
      simp only [List.foldl_cons, hs, String.append_assoc]⟩

theorem mem_foldl_chunk (l : List (String × String)) (acc : String)
    (p : String × String) (hp : p ∈ l) :
    ∃ pre post,
      l.foldl (fun a q => a ++ failChunk q.1 q.2) acc =
        pre ++ failChunk p.1 p.2 ++ post := by
  induction l generalizing acc with
  | nil => cases hp
  | cons q rest ih =>
    rcases List.mem_cons.mp hp with hq | hq
    · subst hq
      obtain ⟨s, hs⟩ := foldl_chunk_extend rest (acc ++ failChunk p.1 p.2)
      exact ⟨acc, s, by simp only [List.foldl_cons, hs]⟩
    · obtain ⟨pre, post, h⟩ := ih (acc ++ failChunk q.1 q.2) hq
      exact ⟨pre, post, by simp only [List.foldl_cons, h]⟩

/-- Claim C4: `extract_suite` on an empty failure map returns the suite
unchanged; on a non-empty failure map it aborts (the panic is the error
branch of the embedding) with a message containing every failed group name
paired with its stored error text. -/
theorem claim_C4_extract_suite (r : BenchmarkSuiteCompilation) :
    (r.failed_to_compile = [] → extract_suite r = .ok r.suite) ∧
    (r.failed_to_compile ≠ [] →
      extract_suite r = .error (extractFailureText r.failed_to_compile) ∧
      ∀ p ∈ r.failed_to_compile, ∃ pre post,
        extractFailureText r.failed_to_compile =
          pre ++ failChunk p.1 p.2 ++ post) := by
  constructor
  · intro h
    unfold extract_suite
    rw [h]
    rfl
  · intro h
    have hne : r.failed_to_compile.isEmpty = false := by
      cases hl : r.failed_to_compile with
      | nil => exact absurd hl h
      | cons q rest => rfl
    have habort : extract_suite r =
        .error (extractFailureText r.failed_to_compile) := by
      unfold extract_suite
      rw [hne]
      rfl
    refine ⟨habort, ?_⟩
    intro p hp
    exact mem_foldl_chunk _ _ p hp

/-- Claim C4 witness: extraction of a result with one failure aborts with
the failure text, which contains the failed group's name and error. -/
theorem claim_C4_witness :
    extract_suite ⟨⟨"tc", [], none⟩, [("g", "err")]⟩ =
      .error (extractFailureText [("g", "err")]) ∧
    ∃ pre post, extractFailureText [("g", "err")] =
      pre ++ failChunk "g" "err" ++ post := by
  have h := (claim_C4_extract_suite ⟨⟨"tc", [], none⟩, [("g", "err")]⟩).2
    (by decide)
  exact ⟨h.1, h.2 ("g", "err") (by decide)⟩

/-- Claim C9: an isolated-mode build step leaves the lock file's permission
bits exactly as they were before the build, whatever the build outcome, and
passes the build's result through unchanged. -/
theorem claim_C9_lock_file_permissions (perms : Nat)
    (build : Nat → Except String BenchmarkGroup × Nat) :
    (isolatedBuildPerms perms build).2 = perms ∧
    (isolatedBuildPerms perms build).1 = (build readOnlyPerms).1 :=
  ⟨rfl, rfl⟩

theorem group_any_iff (g : BenchmarkGroup) (benchmark : String) :
    (g.benchmark_names.any (fun b => b == benchmark)) = true ↔
      benchmark ∈ g.benchmark_names := by
  constructor
  · intro h
    obtain ⟨b, hb, hbeq⟩ := List.any_eq_true.mp h
    exact (beq_iff_eq.mp hbeq) ▸ hb
  · intro h
    exact List.any_eq_true.mpr ⟨benchmark, h, beq_iff_eq.mpr rfl⟩

theorem find_first_in_append (p : BenchmarkGroup → Bool) :
    ∀ (pre : List BenchmarkGroup) (g : BenchmarkGroup)
      (post : List BenchmarkGroup),
      (∀ x ∈ pre, p x = false) → p g = true →
      (pre ++ g :: post).find? p = some g := by
  intro pre
  induction pre with
  | nil => intro g post _ hg; simp [List.find?_cons, hg]
  | cons q rest ih =>
    intro g post hpre hg
    have hq := hpre q (List.mem_cons_self _ _)
    simp only [List.cons_append, List.find?_cons, hq]
    exact ih g post (fun x hx => hpre x (List.mem_cons_of_mem _ hx)) hg

/-- Claim C10: `get_group_by_benchmark` returns `none` exactly when no group
lists the benchmark; a returned group is a group of the suite listing the
benchmark; and the returned group is the first group in suite order that
lists it. -/
theorem claim_C10_get_group_by_benchmark (suite : BenchmarkSuite)
    (benchmark : String) :
    (suite.get_group_by_benchmark benchmark = none ↔
      ∀ g ∈ suite.groups, benchmark ∉ g.benchmark_names) ∧
    (∀ g, suite.get_group_by_benchmark benchmark = some g →
      g ∈ suite.groups ∧ benchmark ∈ g.benchmark_names) ∧
    (∀ pre g post, suite.groups = pre ++ g :: post →
      benchmark ∈ g.benchmark_names →
      (∀ g' ∈ pre, benchmark ∉ g'.benchmark_names) →
      suite.get_group_by_benchmark benchmark = some g) := by
  refine ⟨?_, ?_, ?_⟩
  · unfold BenchmarkSuite.get_group_by_benchmark
    rw [List.find?_eq_none]
    constructor
    · intro h g hg hb
      exact h g hg ((group_any_iff g benchmark).mpr hb)
    · intro h g hg hp
      exact h g hg ((group_any_iff g benchmark).mp hp)
  · intro g h
    unfold BenchmarkSuite.get_group_by_benchmark at h
    have hp := List.find?_some h
    exact ⟨List.mem_of_find?_eq_some h, (group_any_iff g benchmark).mp hp⟩
  · intro pre g post hsplit hb hpre
    unfold BenchmarkSuite.get_group_by_benchmark
    rw [hsplit]
    refine find_first_in_append _ pre g post ?_ ((group_any_iff g benchmark).mpr hb)
    intro x hx
    cases hpx : x.benchmark_names.any (fun b => b == benchmark) with
    | false => rfl
    | true => exact absurd ((group_any_iff x benchmark).mp hpx) (hpre x hx)

/-- Claim C10 witness: on a two-group suite where both groups list `a`, the
first group in suite order is returned. -/
theorem claim_C10_witness :
    BenchmarkSuite.get_group_by_benchmark
        ⟨"tc", [⟨"t/1", "g1", ["a"]⟩, ⟨"t/2", "g2", ["a"]⟩], none⟩ "a" =
      some ⟨"t/1", "g1", ["a"]⟩ :=
  (claim_C10_get_group_by_benchmark
      ⟨"tc", [⟨"t/1", "g1", ["a"]⟩, ⟨"t/2", "g2", ["a"]⟩], none⟩ "a").2.2
    [] ⟨"t/1", "g1", ["a"]⟩ [⟨"t/2", "g2", ["a"]⟩] rfl (by decide)
    (by intro g' hg'; cases hg')

/-- Claim C8: `BenchmarkSuite::filter` keeps exactly the groups with at
least one benchmark passing the filter, each kept group whole (the group
value, with all its benchmark names, is unchanged), leaving the toolchain
and artifacts directory untouched; a name passes when the exclude pattern
(if present) does not match it and the include pattern (if present) does. -/
theorem claim_C8_filter (matchesPat : String → String → Bool)
    (suite : BenchmarkSuite) (filt : BenchmarkFilter) :
    (∀ g, g ∈ (BenchmarkSuite.filter matchesPat suite filt).groups ↔
      g ∈ suite.groups ∧ ∃ b ∈ g.benchmark_names,
        passes_filter matchesPat b filt.exclude filt.inc = true) ∧
    (BenchmarkSuite.filter matchesPat suite filt).toolchain =
      suite.toolchain ∧
    (BenchmarkSuite.filter matchesPat suite filt).tmp_artifacts_dir =
      suite.tmp_artifacts_dir ∧
    (∀ b ex inc, passes_filter matchesPat b ex inc = true ↔
      ((∀ e, ex = some e → matchesPat b e = false) ∧
       (∀ i, inc = some i → matchesPat b i = true))) := by
  refine ⟨?_, rfl, rfl, ?_⟩
  · intro g
    simp [BenchmarkSuite.filter, List.mem_filter, List.any_eq_true]
  · intro b ex inc
    cases ex <;> cases inc <;> simp [passes_filter]

theorem charsLe_total : ∀ xs ys : List Char,
    charsLe xs ys = true ∨ charsLe ys xs = true := by
  intro xs
  induction xs with
  | nil => intro ys; left; rfl
  | cons a as ih =>
    intro ys
    cases ys with
    | nil => right; rfl
    | cons b bs =>
      by_cases h1 : a.toNat < b.toNat
      · left; unfold charsLe; rw [if_pos h1]
      · by_cases h2 : b.toNat < a.toNat
        · right; unfold charsLe; rw [if_pos h2]
        · rcases ih bs with h | h
          · left; unfold charsLe; rw [if_neg h1, if_neg h2]; exact h
          · right; unfold charsLe; rw [if_neg h2, if_neg h1]; exact h

theorem charsLe_trans : ∀ xs ys zs : List Char,
    charsLe xs ys = true → charsLe ys zs = true → charsLe xs zs = true := by
  intro xs
  induction xs with
  | nil => intro ys zs _ _; rfl
  | cons a as ih =>
    intro ys zs h1 h2
    cases ys with
    | nil => simp [charsLe] at h1
    | cons b bs =>
      cases zs with
      | nil => simp [charsLe] at h2
      | cons c cs =>
        unfold charsLe at h1 h2 ⊢
        by_cases hab : a.toNat < b.toNat
        · by_cases hbc : b.toNat < c.toNat
          · rw [if_pos (Nat.lt_trans hab hbc)]
          · rw [if_neg hbc] at h2
            by_cases hcb : c.toNat < b.toNat
            · rw [if_pos hcb] at h2; exact absurd h2 Bool.false_ne_true
            · rw [if_pos (by omega : a.toNat < c.toNat)]
        · rw [if_neg hab] at h1
          by_cases hba : b.toNat < a.toNat
          · rw [if_pos hba] at h1; exact absurd h1 Bool.false_ne_true
          · rw [if_neg hba] at h1
            by_cases hbc : b.toNat < c.toNat
            · rw [if_pos (by omega : a.toNat < c.toNat)]
            · rw [if_neg hbc] at h2
              by_cases hcb : c.toNat < b.toNat
              · rw [if_pos hcb] at h2; exact absurd h2 Bool.false_ne_true
              · rw [if_neg hcb] at h2
                rw [if_neg (by omega : ¬ a.toNat < c.toNat),
                  if_neg (by omega : ¬ c.toNat < a.toNat)]
                exact ih bs cs h1 h2

theorem strLe_total (s t : String) : strLe s t = true ∨ strLe t s = true :=
  charsLe_total s.data t.data

theorem strLe_trans {a b c : String} (h1 : strLe a b = true)
    (h2 : strLe b c = true) : strLe a c = true :=
  charsLe_trans a.data b.data c.data h1 h2

instance : IsTotal BenchmarkGroupCrate (fun a b => strLe a.name b.name = true) :=
  ⟨fun a b => strLe_total a.name b.name⟩

instance : IsTrans BenchmarkGroupCrate (fun a b => strLe a.name b.name = true) :=
  ⟨fun _ _ _ h1 h2 => strLe_trans h1 h2⟩

theorem collectCrates_ok (grp : Option String) (entries : List DirEntry)
    (hvalid : ∀ e ∈ entries, e.isDir = true → e.hasCargoToml = true →
      e.name.isSome) :
    collectCrates grp entries = .ok (unitCrates entries grp) := by
  induction entries with
  | nil => rfl
  | cons e rest ih =>
    have ih' := ih (fun x hx h1 h2 => hvalid x (List.mem_cons_of_mem _ hx) h1 h2)
    cases hU : (e.isDir && e.hasCargoToml) with
    | false =>
      simp only [collectCrates, unitCrates, List.filter_cons, hU,
        Bool.false_eq_true, if_false]
      exact ih'
    | true =>
      have h12 := hU
      rw [Bool.and_eq_true] at h12
      obtain ⟨n, hn⟩ := Option.isSome_iff_exists.mp
        (hvalid e (List.mem_cons_self _ _) h12.1 h12.2)
      cases grp with
      | none =>
        simp [collectCrates, unitCrates, List.filter_cons, hU, hn, ih']
      | some g =>
        by_cases hg : g = n
        · subst hg
          simp [collectCrates, unitCrates, List.filter_cons, hU, hn, ih']
        · simp [collectCrates, unitCrates, List.filter_cons, hU, hn, hg, ih']

/-- Claim C3: discovery returns exactly the immediate entries that are
directories containing a manifest (ignoring all other entries), sorted by
unit name; with a restriction matching no unit it returns the empty list
rather than an error, and with a restriction matching exactly one unit it
returns exactly that unit. -/
theorem claim_C3_discovery (entries : List DirEntry)
    (hvalid : ∀ e ∈ entries, e.isDir = true → e.hasCargoToml = true →
      e.name.isSome) :
    (∀ grp, get_runtime_benchmark_groups entries grp =
      .ok (sortCratesByName (unitCrates entries grp))) ∧
    (∀ grp, (sortCratesByName (unitCrates entries grp)).Perm
        (unitCrates entries grp) ∧
      List.Sorted (fun a b => strLe a.name b.name = true)
        (sortCratesByName (unitCrates entries grp))) ∧
    (∀ R, unitCrates entries (some R) = [] →
      get_runtime_benchmark_groups entries (some R) = .ok []) ∧
    (∀ R u, unitCrates entries (some R) = [u] →
      get_runtime_benchmark_groups entries (some R) = .ok [u]) := by
  have hA : ∀ grp, get_runtime_benchmark_groups entries grp =
      .ok (sortCratesByName (unitCrates entries grp)) := by
    intro grp
    unfold get_runtime_benchmark_groups
    rw [collectCrates_ok grp entries hvalid]
  refine ⟨hA, ?_, ?_, ?_⟩
  · intro grp
    exact ⟨List.perm_insertionSort _ _, List.sorted_insertionSort _ _⟩
  · intro R h
    rw [hA (some R), h]
    rfl
  · intro R u h
    rw [hA (some R), h]
    rfl

/-- Claim C3 witness: a listing with one unit directory `x`, a plain file
and a manifest-less directory yields exactly the unit `x`; restricting to
the absent name `zzz` yields the empty list, not an error. -/
theorem claim_C3_witness :
    get_runtime_benchmark_groups
        [⟨"r/x", some "x", true, true⟩, ⟨"r/f", some "f", false, true⟩,
         ⟨"r/d", some "d", true, false⟩] none =
      .ok [{ name := "x", path := "r/x" }] ∧
    get_runtime_benchmark_groups
        [⟨"r/x", some "x", true, true⟩, ⟨"r/f", some "f", false, true⟩,
         ⟨"r/d", some "d", true, false⟩] (some "zzz") = .ok [] := by
  have h := claim_C3_discovery
    [⟨"r/x", some "x", true, true⟩, ⟨"r/f", some "f", false, true⟩,
     ⟨"r/d", some "d", true, false⟩] (by decide)
  exact ⟨h.1 none, h.2.2.1 "zzz" (by decide)⟩

theorem processMessages_benign_append
    (gather : String → Except String (List String)) (gm : String)
    (ys : List (Except String Message)) (group : Option BenchmarkGroup) :
    ∀ (xs : List (Except String Message)) (acc : String),
      (∀ m ∈ xs, ∃ msg, m = .ok msg ∧ isBinArtifact msg = false) →
      processMessages gather gm (xs ++ ys) group acc =
        processMessages gather gm ys group (diagnosticsBuffer xs acc) := by
  intro xs
  induction xs with
  | nil => intro acc _; rfl
  | cons m rest ih =>
    intro acc h
    obtain ⟨msg, hm, hbin⟩ := h m (List.mem_cons_self _ _)
    subst hm
    have hrest := fun m' hm' => h m' (List.mem_cons_of_mem _ hm')
    cases msg with
    | compilerArtifact exe kinds =>
      cases exe with
      | none =>
        simp only [List.cons_append, processMessages, diagnosticsBuffer]
        exact ih acc hrest
      | some p =>
        have hk : kinds.any (fun k => k == "bin") = false := hbin
        simp only [List.cons_append, processMessages, hk, Bool.false_eq_true,
          if_false, diagnosticsBuffer]
        exact ih acc hrest
    | textLine l =>
      simp only [List.cons_append, processMessages, diagnosticsBuffer]
      exact ih acc hrest
    | compilerMessage rendered message =>
      simp only [List.cons_append, processMessages, diagnosticsBuffer]
      exact ih (acc ++ rendered.getD message) hrest
    | other =>
      simp only [List.cons_append, processMessages, diagnosticsBuffer]
      exact ih acc hrest

/-- Claim C6: on a stream that never designates an executable artifact, a
successful exit yields the distinct `no binary produced` error, while an
unsuccessful exit yields the error carrying the exit code and the
accumulated diagnostics buffer; the two error messages always differ. -/
theorem claim_C6_exit_and_no_binary_errors
    (gather : String → Except String (List String)) (proc : CargoProcess)
    (groupName : String)
    (hbenign : ∀ m ∈ proc.messages, ∃ msg, m = .ok msg ∧
      isBinArtifact msg = false) :
    (proc.exitSuccess = true →
      parse_benchmark_group gather proc groupName =
        .error (noBinaryMsg groupName)) ∧
    (proc.exitSuccess = false →
      parse_benchmark_group gather proc groupName =
        .error (exitCodeMsg proc.exitCode (diagnosticsBuffer proc.messages ""))) ∧
    (∀ code buf, noBinaryMsg groupName ≠ exitCodeMsg code buf) := by
  have hp : processMessages gather groupName proc.messages none "" =
      .ok (none, diagnosticsBuffer proc.messages "") := by
    have h := processMessages_benign_append gather groupName [] none
      proc.messages "" hbenign
    rw [List.append_nil] at h
    exact h
  refine ⟨?_, ?_, ?_⟩
  · intro hs
    unfold parse_benchmark_group
    rw [hp, hs]
    rfl
  · intro hs
    unfold parse_benchmark_group
    rw [hp, hs]
    rfl
  · intro code buf h
    have hd := congrArg String.data h
    rw [noBinaryMsg, exitCodeMsg] at hd
    simp only [String.data_append] at hd
    simp only [List.cons_append] at hd
    injection hd with h1 h2
    exact absurd h1 (by decide)

/-- Claim C6 witness: a successfully exiting build whose stream holds only a
text line fails with the `no binary produced` error. -/
theorem claim_C6_witness :
    parse_benchmark_group (fun _ => .ok [])
        ⟨[.ok (.textLine "hi")], true, none⟩ "gw" =
      .error (noBinaryMsg "gw") :=
  (claim_C6_exit_and_no_binary_errors (fun _ => .ok [])
      ⟨[.ok (.textLine "hi")], true, none⟩ "gw"
      (by
        intro m hm
        rw [List.mem_singleton] at hm
        subst hm
        exact ⟨.textLine "hi", rfl, rfl⟩)).1 rfl

theorem lookup_insertFail (k k' v : String) :
    ∀ m : List (String × String),
      lookupKey k (insertFail k' v m) =
        if k' = k then some v else lookupKey k m := by
  intro m
  induction m with
  | nil => rfl
  | cons p rest ih =>
    obtain ⟨k0, v0⟩ := p
    by_cases h0 : k0 = k'
    · subst h0
      simp only [insertFail, eq_self_iff_true, if_true, lookupKey_cons]
      by_cases hk : k0 = k <;> simp [hk]
    · simp only [insertFail, if_neg h0, lookupKey_cons, ih]
      by_cases hk0 : k0 = k
      · by_cases hk' : k' = k
        · exact absurd (hk0.trans hk'.symm) h0
        · simp [hk0, hk']
      · by_cases hk' : k' = k <;> simp [hk0, hk']

theorem lookup_mem (k v : String) :
    ∀ m : List (String × String), lookupKey k m = some v → (k, v) ∈ m := by
  intro m
  induction m with
  | nil => intro h; cases h
  | cons p rest ih =>
    obtain ⟨k0, v0⟩ := p
    rw [lookupKey_cons]
    by_cases h0 : k0 = k
    · rw [if_pos h0]
      intro h
      injection h with h
      subst h0
      subst h
      exact List.mem_cons_self _ _
    · rw [if_neg h0]
      intro h
      exact List.mem_cons_of_mem _ (ih h)

theorem prepareLoop_fst (sb : BenchmarkGroupCrate → Except String CargoProcess)
    (gather : String → Except String (List String)) :
    ∀ (crates : List BenchmarkGroupCrate) (groups : List BenchmarkGroup)
      (failed : List (String × String)),
      (prepareLoop sb gather crates groups failed).1 =
        groups ++ crates.filterMap (fun c => exceptToOption (buildCrate sb gather c)) := by
  intro crates
  induction crates with
  | nil => intro groups failed; simp [prepareLoop]
  | cons c rest ih =>
    intro groups failed
    cases hb : buildCrate sb gather c with
    | ok g =>
      simp only [prepareLoop, hb]
      rw [ih, List.filterMap_cons, hb]
      simp [exceptToOption, List.append_assoc]
    | error e =>
      simp only [prepareLoop, hb]
      rw [ih, List.filterMap_cons, hb]
      simp [exceptToOption]

theorem prepareLoop_snd_notmem
    (sb : BenchmarkGroupCrate → Except String CargoProcess)
    (gather : String → Except String (List String)) :
    ∀ (crates : List BenchmarkGroupCrate) (groups : List BenchmarkGroup)
      (failed : List (String × String)) (k : String),
      (∀ c ∈ crates, c.name ≠ k) →
      lookupKey k (prepareLoop sb gather crates groups failed).2 =
        lookupKey k failed := by
  intro crates
  induction crates with
  | nil => intro groups failed k _; rfl
  | cons c rest ih =>
    intro groups failed k hk
    have hc := hk c (List.mem_cons_self _ _)
    have hrest := fun c' h' => hk c' (List.mem_cons_of_mem _ h')
    cases hb : buildCrate sb gather c with
    | ok g =>
      simp only [prepareLoop, hb]
      exact ih _ _ k hrest
    | error e =>
      simp only [prepareLoop, hb]
      rw [ih _ _ k hrest, lookup_insertFail]
      simp only [runtime_group_step_name]
      rw [if_neg hc]

theorem prepareLoop_snd_mem
    (sb : BenchmarkGroupCrate → Except String CargoProcess)
    (gather : String → Except String (List String)) :
    ∀ (crates : List BenchmarkGroupCrate) (groups : List BenchmarkGroup)
      (failed : List (String × String)) (c : BenchmarkGroupCrate) (e : String),
      (crates.map (fun x => x.name)).Nodup → c ∈ crates →
      buildCrate sb gather c = .error e →
      lookupKey c.name (prepareLoop sb gather crates groups failed).2 = some e := by
  intro crates
  induction crates with
  | nil => intro _ _ _ _ _ hmem _; cases hmem
  | cons c0 rest ih =>
    intro groups failed c e hnodup hmem hfail
    rw [List.map_cons, List.nodup_cons] at hnodup
    rcases List.mem_cons.mp hmem with rfl | hmem'
    · simp only [prepareLoop, hfail]
      rw [prepareLoop_snd_notmem sb gather rest groups _ c.name
        (fun c' h' heq => hnodup.1 (heq ▸ List.mem_map_of_mem _ h'))]
      rw [lookup_insertFail]
      simp [runtime_group_step_name]
    · cases hb : buildCrate sb gather c0 with
      | ok g =>
        simp only [prepareLoop, hb]
        exact ih _ _ c e hnodup.2 hmem' hfail
      | error e0 =>
        simp only [prepareLoop, hb]
        exact ih _ _ c e hnodup.2 hmem' hfail

theorem parse_two_bin_artifacts
    (gather : String → Except String (List String)) (gm : String)
    (proc : CargoProcess) (pre mid post : List (Except String Message))
    (p1 p2 : String) (k1 k2 : List String) (names1 : List String)
    (hmsgs : proc.messages = pre ++ .ok (.compilerArtifact (some p1) k1) ::
      (mid ++ .ok (.compilerArtifact (some p2) k2) :: post))
    (hpre : ∀ m ∈ pre, ∃ msg, m = .ok msg ∧ isBinArtifact msg = false)
    (hmid : ∀ m ∈ mid, ∃ msg, m = .ok msg ∧ isBinArtifact msg = false)
    (hk1 : k1.any (fun k => k == "bin") = true)
    (hk2 : k2.any (fun k => k == "bin") = true)
    (hg : gather p1 = .ok names1) :
    parse_benchmark_group gather proc gm = .error (multipleBinariesMsg gm) := by
  unfold parse_benchmark_group
  rw [hmsgs]
  rw [processMessages_benign_append gather gm _ none pre "" hpre]
  simp only [processMessages, hk1, eq_self_iff_true, if_true,
    Option.isSome_none, Bool.false_eq_true, if_false, hg]
  rw [processMessages_benign_append gather gm _ _ mid _ hmid]
  simp only [processMessages, hk2, eq_self_iff_true, if_true,
    Option.isSome_some]

/-- Claim C7: a failing unit's entry in the failure map is keyed by the
unit's step name (modelled from the spec as the unit's discovered directory
name) and holds the formatted error text. -/
theorem claim_C7_failure_map_keys
    (sb : BenchmarkGroupCrate → Except String CargoProcess)
    (gather : String → Except String (List String)) (tc : String)
    (entries : List DirEntry) (iso : CargoIsolationMode) (grp : Option String)
    (crates : List BenchmarkGroupCrate) (c : BenchmarkGroupCrate) (e : String)
    (r : BenchmarkSuiteCompilation)
    (hdisc : get_runtime_benchmark_groups entries grp = .ok crates)
    (hnodup : (crates.map (fun x => x.name)).Nodup)
    (hc : c ∈ crates)
    (hfail : buildCrate sb gather c = .error e)
    (hprep : prepare_runtime_benchmark_suite sb gather tc entries iso grp =
      .ok r) :
    lookupKey (runtime_group_step_name c.name) r.failed_to_compile = some e ∧
    (runtime_group_step_name c.name, e) ∈ r.failed_to_compile := by
  obtain ⟨crates', hd', hgroups, hfailed, hchk⟩ :=
    prepare_ok_elim sb gather tc entries iso grp r hprep
  rw [hdisc] at hd'
  injection hd' with hd'
  subst hd'
  rw [hfailed]
  have hl := prepareLoop_snd_mem sb gather crates [] [] c e hnodup hc hfail
  exact ⟨hl, lookup_mem _ _ _ hl⟩

/-- Claim C7 witness: with one crate whose build cannot even be spawned, the
assembled result's failure map holds that crate's name with the error. -/
theorem claim_C7_witness :
    lookupKey (runtime_group_step_name "u")
        (BenchmarkSuiteCompilation.failed_to_compile
          ⟨⟨"tc", [], some ()⟩,
           [("u", contextMsg "Cannot start compilation of u" "spawn")]⟩) =
      some (contextMsg "Cannot start compilation of u" "spawn") ∧
    (runtime_group_step_name "u",
        contextMsg "Cannot start compilation of u" "spawn") ∈
      BenchmarkSuiteCompilation.failed_to_compile
        ⟨⟨"tc", [], some ()⟩,
         [("u", contextMsg "Cannot start compilation of u" "spawn")]⟩ :=
  claim_C7_failure_map_keys
    (fun _ => .error "spawn") (fun _ => .ok []) "tc"
    [⟨"r/u", some "u", true, true⟩] .isolated none
    [⟨"u", "r/u"⟩] ⟨"u", "r/u"⟩
    (contextMsg "Cannot start compilation of u" "spawn")
    ⟨⟨"tc", [], some ()⟩,
     [("u", contextMsg "Cannot start compilation of u" "spawn")]⟩
    rfl (by decide) (by decide) rfl rfl

/-- Claim C5: a unit whose build stream designates two executable binaries
fails in the interpreter with the `multiple binaries` error; the assembler
records exactly that (context-wrapped) error for the unit in the failure map
and still assembles every other successfully built unit into the suite. -/
theorem claim_C5_multiple_binaries
    (sb : BenchmarkGroupCrate → Except String CargoProcess)
    (gather : String → Except String (List String)) (tc : String)
    (entries : List DirEntry) (iso : CargoIsolationMode) (grp : Option String)
    (crates : List BenchmarkGroupCrate) (c : BenchmarkGroupCrate)
    (proc : CargoProcess) (pre mid post : List (Except String Message))
    (p1 p2 : String) (k1 k2 : List String) (names1 : List String)
    (r : BenchmarkSuiteCompilation)
    (hdisc : get_runtime_benchmark_groups entries grp = .ok crates)
    (hnodup : (crates.map (fun x => x.name)).Nodup)
    (hc : c ∈ crates)
    (hstart : sb c = .ok proc)
    (hmsgs : proc.messages = pre ++ .ok (.compilerArtifact (some p1) k1) ::
      (mid ++ .ok (.compilerArtifact (some p2) k2) :: post))
    (hpre : ∀ m ∈ pre, ∃ msg, m = .ok msg ∧ isBinArtifact msg = false)
    (hmid : ∀ m ∈ mid, ∃ msg, m = .ok msg ∧ isBinArtifact msg = false)
    (hk1 : k1.any (fun k => k == "bin") = true)
    (hk2 : k2.any (fun k => k == "bin") = true)
    (hg : gather p1 = .ok names1)
    (hprep : prepare_runtime_benchmark_suite sb gather tc entries iso grp =
      .ok r) :
    parse_benchmark_group gather proc c.name =
      .error (multipleBinariesMsg c.name) ∧
    lookupKey (runtime_group_step_name c.name) r.failed_to_compile =
      some (contextMsg ("Cannot compile runtime benchmark " ++ c.name)
        (multipleBinariesMsg c.name)) ∧
    r.suite.groups = sortGroupsByBinary
      (crates.filterMap (fun c' => exceptToOption (buildCrate sb gather c'))) ∧
    (∀ c' ∈ crates, ∀ gr, buildCrate sb gather c' = .ok gr →
      gr ∈ r.suite.groups) := by
  have hparse : parse_benchmark_group gather proc c.name =
      .error (multipleBinariesMsg c.name) :=
    parse_two_bin_artifacts gather c.name proc pre mid post p1 p2 k1 k2 names1
      hmsgs hpre hmid hk1 hk2 hg
  have hbuild : buildCrate sb gather c =
      .error (contextMsg ("Cannot compile runtime benchmark " ++ c.name)
        (multipleBinariesMsg c.name)) := by
    unfold buildCrate
    rw [hstart]
    dsimp only
    rw [hparse]
  obtain ⟨crates', hd', hgroups, hfailed, hchk⟩ :=
    prepare_ok_elim sb gather tc entries iso grp r hprep
  rw [hdisc] at hd'
  injection hd' with hd'
  subst hd'
  have hfst := prepareLoop_fst sb gather crates [] []
  refine ⟨hparse, ?_, ?_, ?_⟩
  · rw [hfailed]
    exact prepareLoop_snd_mem sb gather crates [] [] c _ hnodup hc hbuild
  · rw [hgroups, hfst, List.nil_append]
  · intro c' hc' gr hok
    rw [hgroups, hfst, List.nil_append]
    unfold sortGroupsByBinary
    rw [List.mem_insertionSort]
    exact List.mem_filterMap.mpr ⟨c', hc', by rw [hok]; rfl⟩

/-- Claim C5 witness: unit `a` emits two binary artifacts and is recorded as
failed with the multiple-binaries error, while unit `b` builds and is still
assembled into the suite. -/
theorem claim_C5_witness :
    parse_benchmark_group (fun _ => .ok [])
        ⟨[.ok (.compilerArtifact (some "bin1") ["bin"]),
          .ok (.compilerArtifact (some "bin1x") ["bin"])], true, some 0⟩ "a" =
      .error (multipleBinariesMsg "a") ∧
    lookupKey (runtime_group_step_name "a")
        (BenchmarkSuiteCompilation.failed_to_compile
          ⟨⟨"tc", [⟨"bin2", "b", []⟩], none⟩,
           [("a", contextMsg "Cannot compile runtime benchmark a"
              (multipleBinariesMsg "a"))]⟩) =
      some (contextMsg ("Cannot compile runtime benchmark " ++ "a")
        (multipleBinariesMsg "a")) ∧
    BenchmarkSuite.groups
        ⟨"tc", [⟨"bin2", "b", []⟩], none⟩ = sortGroupsByBinary
      (([⟨"a", "r/a"⟩, ⟨"b", "r/b"⟩] :
          List BenchmarkGroupCrate).filterMap (fun c' => exceptToOption
        (buildCrate
          (fun c => if c.name = "a" then
              .ok ⟨[.ok (.compilerArtifact (some "bin1") ["bin"]),
                    .ok (.compilerArtifact (some "bin1x") ["bin"])], true,
                some 0⟩
            else
              .ok ⟨[.ok (.compilerArtifact (some "bin2") ["bin"])], true,
                some 0⟩)
          (fun _ => .ok []) c'))) ∧
    (∀ c' ∈ ([⟨"a", "r/a"⟩, ⟨"b", "r/b"⟩] : List BenchmarkGroupCrate),
      ∀ gr, buildCrate
          (fun c => if c.name = "a" then
              .ok ⟨[.ok (.compilerArtifact (some "bin1") ["bin"]),
                    .ok (.compilerArtifact (some "bin1x") ["bin"])], true,
                some 0⟩
            else
              .ok ⟨[.ok (.compilerArtifact (some "bin2") ["bin"])], true,
                some 0⟩)
          (fun _ => .ok []) c' = .ok gr →
        gr ∈ BenchmarkSuite.groups ⟨"tc", [⟨"bin2", "b", []⟩], none⟩) :=
  claim_C5_multiple_binaries
    (fun c => if c.name = "a" then
        .ok ⟨[.ok (.compilerArtifact (some "bin1") ["bin"]),
              .ok (.compilerArtifact (some "bin1x") ["bin"])], true, some 0⟩
      else
        .ok ⟨[.ok (.compilerArtifact (some "bin2") ["bin"])], true, some 0⟩)
    (fun _ => .ok []) "tc"
    [⟨"r/a", some "a", true, true⟩, ⟨"r/b", some "b", true, true⟩] .cached none
    [⟨"a", "r/a"⟩, ⟨"b", "r/b"⟩] ⟨"a", "r/a"⟩
    ⟨[.ok (.compilerArtifact (some "bin1") ["bin"]),
      .ok (.compilerArtifact (some "bin1x") ["bin"])], true, some 0⟩
    [] [] [] "bin1" "bin1x" ["bin"] ["bin"] []
    ⟨⟨"tc", [⟨"bin2", "b", []⟩], none⟩,
     [("a", contextMsg "Cannot compile runtime benchmark a"
        (multipleBinariesMsg "a"))]⟩
    rfl (by decide) (by decide) rfl rfl
    (fun m hm => absurd hm (List.not_mem_nil m))
    (fun m hm => absurd hm (List.not_mem_nil m))
    rfl rfl rfl rfl

end RuntimeBenchmark
